import Mathlib

/-! Verification development for the clinic queue / appointment-slot subsystem.

The definitions below are shallow embeddings of the Python source files
`queues/models.py` (`Queue`, `PatientQueue`), `queues/services.py`
(`CheckInService`), `nurses/services.py` (`NurseService`),
`doctors/models.py` (`Doctor.get_available_slots_for_date`),
`appointments/models.py` (`DoctorAvailability`, `Appointment`) and
`appointments/services.py` (`AppointmentService`).

Database tables become lists of records; Django auto primary keys become
"one more than the largest existing pk"; wall-clock timestamp fields
(`timezone.now()` stamps such as `check_in_time`,
`consultation_start_time`) carry no information the verified claims read
and are omitted from the record types.  Times of day are minutes since
midnight; calendar dates are day ordinals. -/

namespace CAQM

/-- Status choices of `PatientQueue.STATUS_CHOICES` in `queues/models.py`. -/
inductive QStatus
  | WAITING
  | IN_PROGRESS
  | TERMINATED
  | EMERGENCY
  | NO_SHOW
  deriving DecidableEq, Repr

/-- A row of the `patient_queues` table (class `PatientQueue` in
`queues/models.py`).  `check_in_time`, `checkedin_via_qrcode` and the two
consultation timestamps are wall-clock data not modelled here;
`estimated_time` is minutes. -/
structure PatientQueue where
  pk : Nat
  patient : Nat
  position : Nat
  status : QStatus
  is_emergency : Bool
  estimated_time : Nat
  deriving DecidableEq, Repr

/-- `Queue.get_estimated_wait_time` in `queues/models.py`: `position * 30`. -/
def get_estimated_wait_time (position : Nat) : Nat := position * 30

/-- The aggregate `Max('position')` over a queue's rows, with the source's
`(last_position or 0)` reading of an empty table. -/
def maxPosition (q : List PatientQueue) : Nat :=
  (q.map (·.position)).foldr max 0

/-- A fresh Django auto primary key for a new row: one more than every pk
already in the table. -/
def freshPk (q : List PatientQueue) : Nat :=
  (q.map (·.pk)).foldr max 0 + 1

/-- `PatientQueue.save` on a row being created (`queues/models.py` lines
157-166): position becomes max existing position + 1 and
`estimated_time` becomes `queue.get_estimated_wait_time(position)`. -/
def newEntry (q : List PatientQueue) (patient : Nat) : PatientQueue :=
  { pk := freshPk q
    patient := patient
    position := maxPosition q + 1
    status := QStatus.WAITING
    is_emergency := false
    estimated_time := get_estimated_wait_time (maxPosition q + 1) }

/-- Outcome of `CheckInService.check_in_patient`. -/
inductive CheckInResult
  | alreadyCheckedIn
  | ok (entry : PatientQueue)
  deriving DecidableEq, Repr

/-- `CheckInService.check_in_patient` (`queues/services.py` lines 112-145)
restricted to the queue-entry table: an existing entry for the patient is
looked up before the insert and aborts it; otherwise a new WAITING row is
created through `PatientQueue.save`.  (The appointment-status flip to
CHECKED_IN writes to the appointment table, which no queue claim reads.) -/
def check_in_patient (q : List PatientQueue) (patient : Nat) :
    CheckInResult × List PatientQueue :=
  if q.any (fun e => decide (e.patient = patient)) then
    (CheckInResult.alreadyCheckedIn, q)
  else
    (CheckInResult.ok (newEntry q patient), q ++ [newEntry q patient])

/-- Outcome of `NurseService.call_next_patient`. -/
inductive CallResult
  | consultationInProgress
  | queueEmpty
  | called (pk : Nat)
  deriving DecidableEq, Repr

/-- The rows with status WAITING (`filter(status='WAITING')`). -/
def waitingEntries (q : List PatientQueue) : List PatientQueue :=
  q.filter (fun e => decide (e.status = QStatus.WAITING))

/-- `order_by('position').first()`: the row with the smallest position
(first row wins ties, as in a stable sort). -/
def minByPosition : List PatientQueue → Option PatientQueue
  | [] => none
  | e :: rest =>
    match minByPosition rest with
    | none => some e
    | some m => if e.position ≤ m.position then some e else some m

/-- `NurseService.call_next_patient` (`nurses/services.py` lines 64-92):
fails if some row is already IN_PROGRESS, else moves the WAITING row of
lowest position to IN_PROGRESS (its `consultation_start_time` stamp is
wall-clock data outside the model). -/
def call_next_patient (q : List PatientQueue) : CallResult × List PatientQueue :=
  match q.find? (fun e => decide (e.status = QStatus.IN_PROGRESS)) with
  | some _ => (CallResult.consultationInProgress, q)
  | none =>
    match minByPosition (waitingEntries q) with
    | none => (CallResult.queueEmpty, q)
    | some nxt =>
      (CallResult.called nxt.pk,
       q.map (fun e =>
         if e.pk = nxt.pk then { e with status := QStatus.IN_PROGRESS } else e))

/-- Outcome of the entry-targeted `NurseService` transitions. -/
inductive OpResult
  | notFound
  | invalidState
  | ok (pk : Nat)
  deriving DecidableEq, Repr

/-- `NurseService.start_consultation` (`nurses/services.py` lines 94-130),
queue-entry table only.  It checks that the target row is WAITING — and
nothing else: in particular it does not look for an existing IN_PROGRESS
row.  The cross-update of a matching appointment touches the appointment
table only. -/
def start_consultation (q : List PatientQueue) (pk : Nat) :
    OpResult × List PatientQueue :=
  match q.find? (fun e => decide (e.pk = pk)) with
  | none => (OpResult.notFound, q)
  | some e =>
    if e.status = QStatus.WAITING then
      (OpResult.ok pk,
       q.map (fun x =>
         if x.pk = pk then { x with status := QStatus.IN_PROGRESS } else x))
    else (OpResult.invalidState, q)

/-- `NurseService.end_consultation` (`nurses/services.py` lines 132-168),
queue-entry table only: IN_PROGRESS becomes TERMINATED. -/
def end_consultation (q : List PatientQueue) (pk : Nat) :
    OpResult × List PatientQueue :=
  match q.find? (fun e => decide (e.pk = pk)) with
  | none => (OpResult.notFound, q)
  | some e =>
    if e.status = QStatus.IN_PROGRESS then
      (OpResult.ok pk,
       q.map (fun x =>
         if x.pk = pk then { x with status := QStatus.TERMINATED } else x))
    else (OpResult.invalidState, q)

/-- `NurseService.mark_no_show` (`nurses/services.py` lines 170-205),
queue-entry table only: WAITING or EMERGENCY becomes NO_SHOW. -/
def mark_no_show (q : List PatientQueue) (pk : Nat) :
    OpResult × List PatientQueue :=
  match q.find? (fun e => decide (e.pk = pk)) with
  | none => (OpResult.notFound, q)
  | some e =>
    if e.status = QStatus.WAITING ∨ e.status = QStatus.EMERGENCY then
      (OpResult.ok pk,
       q.map (fun x =>
         if x.pk = pk then { x with status := QStatus.NO_SHOW } else x))
    else (OpResult.invalidState, q)

/-- `PatientQueue.mark_as_emergency` (`queues/models.py` lines 211-230)
applied to the row with primary key `pk`: the row gets `is_emergency`,
status EMERGENCY and position 1, after every row whose position was
strictly below the row's old position is shifted up by one. -/
def mark_as_emergency (q : List PatientQueue) (pk : Nat) : List PatientQueue :=
  match q.find? (fun e => decide (e.pk = pk)) with
  | none => q
  | some e =>
    q.map (fun x =>
      if x.pk = pk then
        { x with is_emergency := true, status := QStatus.EMERGENCY, position := 1 }
      else if x.position < e.position then { x with position := x.position + 1 }
      else x)

/-- `PatientQueue.update_position` (`queues/models.py` lines 232-255)
applied to the row with primary key `pk`: the row is moved to
`new_position` with its estimated wait recomputed; other rows in
`[new_position, old_position)` are incremented when moving to a lower
number, other rows in `(old_position, new_position]` decremented when
moving to a higher number. -/
def update_position (q : List PatientQueue) (pk new_position : Nat) :
    List PatientQueue :=
  match q.find? (fun e => decide (e.pk = pk)) with
  | none => q
  | some e =>
    q.map (fun x =>
      if x.pk = pk then
        { x with position := new_position,
                 estimated_time := get_estimated_wait_time new_position }
      else if new_position < e.position ∧ new_position ≤ x.position ∧
          x.position < e.position then
        { x with position := x.position + 1 }
      else if e.position < new_position ∧ e.position < x.position ∧
          x.position ≤ new_position then
        { x with position := x.position - 1 }
      else x)

/-- The queue operations the invariant claims quantify over (spec §4.3), as
they reach the queue-entry table through `CheckInService`, `NurseService`
and the `PatientQueue` model methods. -/
inductive Op
  | enqueue (patient : Nat)
  | callNext
  | startConsultation (pk : Nat)
  | endConsultation (pk : Nat)
  | markNoShow (pk : Nat)
  | promoteToEmergency (pk : Nat)
  | reposition (pk : Nat) (new_position : Nat)
  deriving DecidableEq, Repr

/-- Effect of one operation on the queue-entry table. -/
def apply : Op → List PatientQueue → List PatientQueue
  | Op.enqueue p, q => (check_in_patient q p).2
  | Op.callNext, q => (call_next_patient q).2
  | Op.startConsultation pk, q => (start_consultation q pk).2
  | Op.endConsultation pk, q => (end_consultation q pk).2
  | Op.markNoShow pk, q => (mark_no_show q pk).2
  | Op.promoteToEmergency pk, q => mark_as_emergency q pk
  | Op.reposition pk j, q => update_position q pk j

/-- A whole sequence of operations, run left to right. -/
def applyTrace (ops : List Op) (q : List PatientQueue) : List PatientQueue :=
  ops.foldl (fun s op => apply op s) q

/-- Queue states reachable from the empty queue by operations each allowed
by `P` in the state where it runs. -/
inductive ReachableW (P : Op → List PatientQueue → Prop) :
    List PatientQueue → Prop
  | init : ReachableW P []
  | step (op : Op) (q : List PatientQueue) :
      P op q → ReachableW P q → ReachableW P (apply op q)

/-- The positions column of the table. -/
def positions (q : List PatientQueue) : List Nat := q.map (·.position)

/-- How many rows are IN_PROGRESS. -/
def inProgressCount (q : List PatientQueue) : Nat :=
  q.countP (fun e => decide (e.status = QStatus.IN_PROGRESS))

/-- All primary keys distinct (Django guarantees this for any table). -/
def PksNodup (q : List PatientQueue) : Prop := (q.map (·.pk)).Nodup

/-- The dense-permutation invariant of spec §3: the positions are a
permutation of `1..N` where `N` is the number of rows. -/
def DensePos (q : List PatientQueue) : Prop :=
  List.Perm (positions q) (List.range' 1 q.length)

/-- The rows the spec calls active: status not terminal. -/
def activeEntries (q : List PatientQueue) : List PatientQueue :=
  q.filter (fun e =>
    decide (e.status ≠ QStatus.TERMINATED ∧ e.status ≠ QStatus.NO_SHOW))

/-- Status choices of `Appointment.STATUS_CHOICES` in
`appointments/models.py`. -/
inductive AStatus
  | SCHEDULED
  | CHECKED_IN
  | IN_PROGRESS
  | COMPLETED
  | CANCELLED
  | NO_SHOW
  deriving DecidableEq, Repr

/-- A row of `doctor_availability` (`appointments/models.py`).  Times of
day are minutes since midnight. -/
structure DoctorAvailability where
  doctor : Nat
  day_of_week : String
  start_time : Nat
  end_time : Nat
  slot_duration : Nat
  is_active : Bool
  deriving DecidableEq, Repr

/-- A row of the `appointments` table (`appointments/models.py`).  The
free-text `notes` field and the audit timestamps carry no information the
verified operations read and are omitted.  Dates are day ordinals. -/
structure Appointment where
  id : Nat
  patient : Nat
  doctor : Nat
  appointment_date : Nat
  start_time : Nat
  end_time : Nat
  status : AStatus
  deriving DecidableEq, Repr

/-- A row of the `doctors` table (`doctors/models.py`), with the fields the
verified operations read: primary key and specialization. -/
structure Doctor where
  pk : Nat
  specialization : String
  deriving DecidableEq, Repr

/-- `date.strftime('%A').upper()`: dates are day ordinals with day 0 a
Monday. -/
def weekdayName (date : Nat) : String :=
  ["MONDAY", "TUESDAY", "WEDNESDAY", "THURSDAY", "FRIDAY", "SATURDAY",
   "SUNDAY"].getD (date % 7) ""

/-- The filter `status__in=['SCHEDULED', 'CHECKED_IN']`. -/
def isActiveStatus (s : AStatus) : Bool :=
  decide (s = AStatus.SCHEDULED) || decide (s = AStatus.CHECKED_IN)

/-- The `while current_time + slot_duration <= end_time` walk of
`Doctor.get_available_slots_for_date`, with explicit fuel.  The Python
loop terminates whenever `slot_duration > 0`, and `slotFuel` below is
then enough fuel to reproduce it exactly. -/
def slotWalk (fuel : Nat) (current end_time dur : Nat) : List Nat :=
  match fuel with
  | 0 => []
  | fuel + 1 =>
    if current + dur ≤ end_time then
      current :: slotWalk fuel (current + dur) end_time dur
    else []

/-- Enough fuel for `slotWalk` whenever the duration is positive. -/
def slotFuel (a : DoctorAvailability) : Nat := a.end_time + 1

/-- The availability lookup of `doctors/models.py` lines 38-42:
`filter(doctor=self, day_of_week=day_of_week, is_active=True).first()`. -/
def findAvailability (avs : List DoctorAvailability) (doctor : Nat)
    (day : String) : Option DoctorAvailability :=
  avs.find? (fun a => decide (a.doctor = doctor) && (a.day_of_week == day) &&
    a.is_active)

/-- The SCHEDULED/CHECKED_IN appointments of one doctor on one date. -/
def activeAppointments (apts : List Appointment) (doctor date : Nat) :
    List Appointment :=
  apts.filter (fun ap => decide (ap.doctor = doctor) &&
    decide (ap.appointment_date = date) && isActiveStatus ap.status)

/-- `Doctor.get_available_slots_for_date` (`doctors/models.py` lines
29-78): build the slot grid from the day's active availability, drop the
start times of booked (SCHEDULED/CHECKED_IN) appointments, return empty
when 15 or more such appointments exist and otherwise at most
`15 - count` of the remaining candidates. -/
def get_available_slots_for_date (avs : List DoctorAvailability)
    (apts : List Appointment) (doctor date : Nat) : List Nat :=
  match findAvailability avs doctor (weekdayName date) with
  | none => []
  | some availability =>
    let slots := slotWalk (slotFuel availability) availability.start_time
      availability.end_time availability.slot_duration
    let booked := (activeAppointments apts doctor date).map (·.start_time)
    let available_slots := slots.filter (fun s => decide (s ∉ booked))
    let appointments_count := (activeAppointments apts doctor date).length
    if 15 ≤ appointments_count then []
    else available_slots.take (15 - appointments_count)

/-- `AppointmentService.get_available_slots` (`appointments/services.py`
lines 21-39): resolve the doctor id; an unknown id returns the empty
list.  The Lean model is a total function, so the source's blanket
`except Exception: return []` arm has no residual behaviour to model. -/
def get_available_slots (doctors : List Doctor)
    (avs : List DoctorAvailability) (apts : List Appointment)
    (doctor_id date : Nat) : List Nat :=
  match doctors.find? (fun d => decide (d.pk = doctor_id)) with
  | none => []
  | some doctor => get_available_slots_for_date avs apts doctor.pk date

/-- The join `doctor__specialization` used by `Appointment.clean`: the
specialization of the doctor row with the given primary key. -/
def specOf (doctors : List Doctor) (pk : Nat) : String :=
  match doctors.find? (fun d => decide (d.pk = pk)) with
  | none => ""
  | some d => d.specialization

/-- The three `ValidationError`s `Appointment.clean` can raise. -/
inductive CleanError
  | pastDate
  | specializationConflict
  | capacityReached
  deriving DecidableEq, Repr

/-- `Appointment.clean` (`appointments/models.py` lines 82-111): reject a
past date, then a second active appointment of the same patient with the
same doctor specialization on the same date, then a sixteenth active
appointment of the doctor on the date.  Both existing-row filters carry
the source's `exclude(pk=self.pk)`. -/
def clean (doctors : List Doctor) (apts : List Appointment)
    (a : Appointment) (today : Nat) : Except CleanError Unit :=
  if a.appointment_date < today then Except.error CleanError.pastDate
  else if (apts.filter (fun x => decide (x.patient = a.patient) &&
      decide (x.appointment_date = a.appointment_date) &&
      (specOf doctors x.doctor == specOf doctors a.doctor) &&
      isActiveStatus x.status && decide (x.id ≠ a.id))).length ≠ 0 then
    Except.error CleanError.specializationConflict
  else if 15 ≤ (apts.filter (fun x => decide (x.doctor = a.doctor) &&
      decide (x.appointment_date = a.appointment_date) &&
      isActiveStatus x.status && decide (x.id ≠ a.id))).length then
    Except.error CleanError.capacityReached
  else Except.ok ()

/-- A fresh Django auto primary key for a new appointment row. -/
def freshAptId (apts : List Appointment) : Nat :=
  (apts.map (·.id)).foldr max 0 + 1

/-- An error collected by Django's `Model.full_clean` on an appointment:
either one of the custom `Appointment.clean` validations, or a
`validate_unique` violation of the model's
`unique_together ['doctor', 'appointment_date', 'start_time']`. -/
inductive FullCleanError
  | model (e : CleanError)
  | uniqueConflict
  deriving DecidableEq, Repr

/-- Django's `Model.full_clean` as run by `Appointment.save`
(`appointments/models.py` lines 113-115): `clean_fields` (which cannot
fail in this typed model), then the custom `clean`, then
`validate_unique` against `unique_together
['doctor', 'appointment_date', 'start_time']` (excluding the row being
saved by pk), collecting the errors of every stage; the save is aborted
when any error was collected. -/
def full_clean (doctors : List Doctor) (apts : List Appointment)
    (a : Appointment) (today : Nat) : List FullCleanError :=
  (match clean doctors apts a today with
   | Except.error e => [FullCleanError.model e]
   | Except.ok _ => []) ++
  (if (apts.filter (fun x => decide (x.doctor = a.doctor) &&
      decide (x.appointment_date = a.appointment_date) &&
      decide (x.start_time = a.start_time) &&
      decide (x.id ≠ a.id))).length ≠ 0
   then [FullCleanError.uniqueConflict] else [])

/-- The record `ScheduledAppointmentCreator.create_product` builds
(`appointments/appointment_creators.py` lines 43-57): status SCHEDULED
and `end_time = start_time + slot_duration` from the availability its
`_calculate_end_time` looked up. -/
def newAppointment (apts : List Appointment)
    (patient doctor appointment_date start_time : Nat)
    (availability : DoctorAvailability) : Appointment :=
  { id := freshAptId apts
    patient := patient
    doctor := doctor
    appointment_date := appointment_date
    start_time := start_time
    end_time := start_time + availability.slot_duration
    status := AStatus.SCHEDULED }

/-- Outcome of `AppointmentService.book_appointment`. -/
inductive BookResult
  | noAvailability
  | invalid (errs : List FullCleanError)
  | booked (a : Appointment)
  deriving DecidableEq, Repr

/-- `AppointmentService.book_appointment` (`appointments/services.py`
lines 41-85) for a scheduled (non-walk-in) booking: the creator's
`_calculate_end_time` looks up the doctor's active availability for the
date's weekday and raises `ValueError` when none exists (caught by the
service, nothing saved); otherwise `Appointment.save` runs `full_clean`
before the insert, so any validation failure returns the errors and
leaves the table unchanged. -/
def book_appointment (doctors : List Doctor)
    (avs : List DoctorAvailability) (apts : List Appointment)
    (patient doctor appointment_date start_time today : Nat) :
    BookResult × List Appointment :=
  match findAvailability avs doctor (weekdayName appointment_date) with
  | none => (BookResult.noAvailability, apts)
  | some availability =>
    let a := newAppointment apts patient doctor appointment_date start_time
      availability
    match full_clean doctors apts a today with
    | [] => (BookResult.booked a, apts ++ [a])
    | e :: es => (BookResult.invalid (e :: es), apts)

/-- The `str(e)` texts `cancel_appointment` can surface from a
`ValidationError` raised by `full_clean` during the save. -/
def cleanMessage : CleanError → String
  | CleanError.pastDate => "Cannot book appointment in the past"
  | CleanError.specializationConflict => "Specialization conflict"
  | CleanError.capacityReached =>
    "Doctor has reached maximum appointments for this day"

/-- `AppointmentService.cancel_appointment` (`appointments/services.py`
lines 87-106): fetch by (id, patient, status SCHEDULED); any miss yields
the one not-found failure with the table unchanged; a hit is flipped to
CANCELLED and saved, `full_clean` running first. -/
def cancel_appointment (doctors : List Doctor) (apts : List Appointment)
    (appointment_id patient today : Nat) :
    (Bool × String) × List Appointment :=
  match apts.find? (fun a => decide (a.id = appointment_id) &&
      decide (a.patient = patient) && decide (a.status = AStatus.SCHEDULED)) with
  | none => ((false, "Appointment not found or cannot be cancelled"), apts)
  | some a =>
    match clean doctors apts { a with status := AStatus.CANCELLED } today with
    | Except.error e => ((false, cleanMessage e), apts)
    | Except.ok _ =>
      ((true, "Appointment cancelled successfully"),
       apts.map (fun x =>
         if x.id = a.id then { a with status := AStatus.CANCELLED } else x))

/-- Python's `str.split('-')` over the characters of the string: split at
every dash, keeping empty pieces. -/
def splitDash : List Char → List (List Char)
  | [] => [[]]
  | c :: rest =>
    if c = '-' then [] :: splitDash rest
    else
      match splitDash rest with
      | [] => [[c]]
      | piece :: pieces => (c :: piece) :: pieces

/-- The value of an ASCII digit. -/
def digitVal (c : Char) : Nat := c.toNat - '0'.toNat

/-- The zero points of the decades of Unicode decimal digits (category
Nd): every decimal digit is one of these code points plus its value
0..9.  This is the digit set of Python's `int()` and of the `\\d` in the
regexes `_strptime` compiles, dumped from the Unicode tables of the
CPython build the program runs on. -/
def ndZeros : List Nat :=
  [0x30, 0x660, 0x6F0, 0x7C0, 0x966, 0x9E6, 0xA66, 0xAE6, 0xB66, 0xBE6,
   0xC66, 0xCE6, 0xD66, 0xDE6, 0xE50, 0xED0, 0xF20, 0x1040, 0x1090,
   0x17E0, 0x1810, 0x1946, 0x19D0, 0x1A80, 0x1A90, 0x1B50, 0x1BB0,
   0x1C40, 0x1C50, 0xA620, 0xA8D0, 0xA900, 0xA9D0, 0xA9F0, 0xAA50,
   0xABF0, 0xFF10, 0x104A0, 0x10D30, 0x11066, 0x110F0, 0x11136,
   0x111D0, 0x112F0, 0x11450, 0x114D0, 0x11650, 0x116C0, 0x11730,
   0x118E0, 0x11950, 0x11C50, 0x11D50, 0x11DA0, 0x16A60, 0x16AC0,
   0x16B50, 0x1D7CE, 0x1D7D8, 0x1D7E2, 0x1D7EC, 0x1D7F6, 0x1E140,
   0x1E2F0, 0x1E950, 0x1FBF0]

/-- A Unicode decimal digit (category Nd). -/
def isPyDigit (c : Char) : Bool :=
  ndZeros.any (fun z => decide (z ≤ c.toNat ∧ c.toNat < z + 10))

/-- The decimal value of a Unicode decimal digit. -/
def pyDigitVal (c : Char) : Nat :=
  match ndZeros.find? (fun z => decide (z ≤ c.toNat ∧ c.toNat < z + 10)) with
  | some z => c.toNat - z
  | none => 0

/-- The number a string of Unicode decimal digits denotes. -/
def pyDigitsVal (ds : List Char) : Nat :=
  ds.foldl (fun acc c => acc * 10 + pyDigitVal c) 0

/-- The characters Python's `str.strip()` removes (`Py_UNICODE_ISSPACE`),
dumped from the CPython build the program runs on. -/
def isPyStripSpace (c : Char) : Bool :=
  decide ((0x9 ≤ c.toNat ∧ c.toNat ≤ 0xD) ∨
    (0x1C ≤ c.toNat ∧ c.toNat ≤ 0x20) ∨
    c.toNat = 0x85 ∨ c.toNat = 0xA0 ∨ c.toNat = 0x1680 ∨
    (0x2000 ≤ c.toNat ∧ c.toNat ≤ 0x200A) ∨ c.toNat = 0x2028 ∨
    c.toNat = 0x2029 ∨ c.toNat = 0x202F ∨ c.toNat = 0x205F ∨
    c.toNat = 0x3000)

/-- Python `str.strip()`. -/
def pyStrip (s : List Char) : List Char :=
  ((s.dropWhile isPyStripSpace).reverse.dropWhile isPyStripSpace).reverse

/-- The whitespace `int()` skips around its argument: `str.strip()`'s set
minus the separators 0x1C..0x1F, which `int()` rejects (checked against
the running CPython). -/
def isPyIntSpace (c : Char) : Bool :=
  isPyStripSpace c && ! decide (0x1C ≤ c.toNat ∧ c.toNat ≤ 0x1F)

/-- After a first digit, the rest of a Python integer literal body:
digits with single underscores strictly between digits (PEP 515). -/
def pyIntDigitsRest : List Char → Bool
  | [] => true
  | '_' :: rest =>
    match rest with
    | c :: rest2 => isPyDigit c && pyIntDigitsRest rest2
    | [] => false
  | c :: rest => isPyDigit c && pyIntDigitsRest rest

/-- Python `int(token)` for a token that contains no minus sign (the
tokens come from splitting on the dash, so a minus cannot survive into
them): optional surrounding whitespace, an optional leading `+`, then at
least one Unicode decimal digit, with single underscores allowed between
digits. -/
def pyInt (s : List Char) : Option Nat :=
  let t := ((s.dropWhile isPyIntSpace).reverse.dropWhile isPyIntSpace).reverse
  let t2 := match t with
    | '+' :: rest => rest
    | _ => t
  match t2 with
  | c :: rest =>
    if isPyDigit c && pyIntDigitsRest rest then
      some (pyDigitsVal (t2.filter (fun x => decide (x ≠ '_'))))
    else none
  | [] => none

def isLeapYear (y : Nat) : Bool :=
  (y % 4 == 0 && y % 100 != 0) || y % 400 == 0

def daysInMonth (y m : Nat) : Nat :=
  if m = 2 then (if isLeapYear y then 29 else 28)
  else if m = 4 ∨ m = 6 ∨ m = 9 ∨ m = 11 then 30
  else 31

/-- One match of the `%m` group `1[0-2]|0[1-9]` two-character
alternatives of the regex CPython's `_strptime` compiles for `%Y%m%d`
(the character classes are ASCII ranges), at the head of the input;
returns the month value and the remaining characters. -/
def matchMonthTwo : List Char → Option (Nat × List Char)
  | c1 :: c2 :: rest =>
    if c1 = '1' ∧ '0' ≤ c2 ∧ c2 ≤ '2' then some (10 + digitVal c2, rest)
    else if c1 = '0' ∧ '1' ≤ c2 ∧ c2 ≤ '9' then some (digitVal c2, rest)
    else none
  | _ => none

/-- The one-character `%m` alternative `[1-9]`. -/
def matchMonthOne : List Char → Option (Nat × List Char)
  | c :: rest =>
    if '1' ≤ c ∧ c ≤ '9' then some (digitVal c, rest) else none
  | [] => none

/-- One match of the `%d` group `3[0-1]|[1-2]\\d|0[1-9]|[1-9]| [1-9]`,
alternatives tried in the regex's priority order (`\\d` is any Unicode
decimal digit; the last alternative is a space followed by a digit);
returns the day value and the remaining characters. -/
def matchDay : List Char → Option (Nat × List Char)
  | c1 :: c2 :: rest =>
    if c1 = '3' ∧ '0' ≤ c2 ∧ c2 ≤ '1' then some (30 + digitVal c2, rest)
    else if ('1' ≤ c1 ∧ c1 ≤ '2') ∧ isPyDigit c2 = true then
      some (10 * digitVal c1 + pyDigitVal c2, rest)
    else if c1 = '0' ∧ '1' ≤ c2 ∧ c2 ≤ '9' then some (digitVal c2, rest)
    else if '1' ≤ c1 ∧ c1 ≤ '9' then some (digitVal c1, c2 :: rest)
    else if c1 = ' ' ∧ '1' ≤ c2 ∧ c2 ≤ '9' then some (digitVal c2, rest)
    else none
  | [c1] =>
    if '1' ≤ c1 ∧ c1 ≤ '9' then some (digitVal c1, []) else none
  | [] => none

/-- The `%m%d` part of the regex match: a two-character month first, a
one-character month when the day group cannot match after it (regex
backtracking); the day takes its first matching alternative and the
match then ends, leftover characters notwithstanding (the pattern is not
end-anchored). -/
def matchMD (rest : List Char) : Option (Nat × Nat × List Char) :=
  match matchMonthTwo rest with
  | some (m, rs) =>
    match matchDay rs with
    | some (d, rs2) => some (m, d, rs2)
    | none =>
      match matchMonthOne rest with
      | some (m1, rs1) =>
        match matchDay rs1 with
        | some (d, rs2) => some (m1, d, rs2)
        | none => none
      | none => none
  | none =>
    match matchMonthOne rest with
    | some (m1, rs1) =>
      match matchDay rs1 with
      | some (d, rs2) => some (m1, d, rs2)
      | none => none
    | none => none

/-- `datetime.strptime(token, '%Y%m%d').date()`: CPython compiles the
pattern `(\\d\\d\\d\\d)(1[0-2]|0[1-9]|[1-9])(3[0-1]|[1-2]\\d|0[1-9]|[1-9]| [1-9])`
and matches it at the start of the token — a fixed four-digit year, then
month and day with alternation-order backtracking; characters left after
the match raise the unconverted-data `ValueError`, and the matched
numbers must satisfy the `datetime` constructor (`MINYEAR ≤ year`, day
within the month, leap years included).  Every failure is a
`ValueError`, i.e. `none`. -/
def strptimeYmd (s : List Char) : Option (Nat × Nat × Nat) :=
  match s with
  | y1 :: y2 :: y3 :: y4 :: rest =>
    if isPyDigit y1 && isPyDigit y2 && isPyDigit y3 && isPyDigit y4 then
      match matchMD rest with
      | some (m, d, []) =>
        let y := pyDigitsVal [y1, y2, y3, y4]
        if 1 ≤ y ∧ 1 ≤ d ∧ d ≤ daysInMonth y m then some (y, m, d)
        else none
      | _ => none
    else none
  | _ => none

/-- `CheckInService.parse_qr_code` (`queues/services.py` lines 20-42):
strip the input, split on the dash, require exactly 3 tokens with literal
first token QUEUE, an integer second token and a `%Y%m%d` third token;
every failure (including the caught `ValueError`s) yields the structured
`(None, None)` result, modelled as `none`. -/
def parse_qr_code (qr_data : List Char) :
    Option (Nat × (Nat × Nat × Nat)) :=
  match splitDash (pyStrip qr_data) with
  | [t0, t1, t2] =>
    if t0 = "QUEUE".toList then
      match pyInt t1, strptimeYmd t2 with
      | some d, some dt => some (d, dt)
      | _, _ => none
    else none
  | _ => none

/-- Net effect of `mark_as_emergency` on the position of a row, as a
function of that row's old position, when the promoted row sat at
position `k` and positions were distinct. -/
def promoteShift (k p : Nat) : Nat :=
  if p = k then 1 else if p < k then p + 1 else p

/-- Net effect of `update_position` on the position of a row, as a function
of that row's old position, when the moved row sat at position `k`, moves
to position `j`, and positions were distinct. -/
def reposShift (k j p : Nat) : Nat :=
  if p = k then j
  else if j ≤ p ∧ p < k then p + 1
  else if k < p ∧ p ≤ j then p - 1
  else p

/-- Allows every operation except `start_consultation`. -/
def NoStartConsult (op : Op) (_q : List PatientQueue) : Prop :=
  ∀ pk, op ≠ Op.startConsultation pk

/-- The operation kinds claim C2 quantifies over (enqueue, reposition,
promote_to_emergency), with a reposition required to target a position
between 1 and the current queue size. -/
def OrderOpOk (op : Op) (q : List PatientQueue) : Prop :=
  match op with
  | Op.enqueue _ => True
  | Op.promoteToEmergency _ => True
  | Op.reposition pk j => ∀ e ∈ q, e.pk = pk → 1 ≤ j ∧ j ≤ q.length
  | _ => False

/-- Every row is non-terminal (WAITING or EMERGENCY are the only statuses
the three C2 operations produce). -/
def AllActive (q : List PatientQueue) : Prop :=
  ∀ e ∈ q, e.status = QStatus.WAITING ∨ e.status = QStatus.EMERGENCY

theorem foldr_max_le {L : List Nat} {n : Nat} (h : ∀ x ∈ L, x ≤ n) :
    L.foldr max 0 ≤ n := by
  induction L with
  | nil => exact Nat.zero_le n
  | cons a t ih =>
    simp only [List.foldr_cons]
    exact Nat.max_le.mpr ⟨h a (by simp), ih fun x hx => h x (by simp [hx])⟩

theorem le_foldr_max {L : List Nat} {x : Nat} (h : x ∈ L) :
    x ≤ L.foldr max 0 := by
  induction L with
  | nil => cases h
  | cons a t ih =>
    simp only [List.foldr_cons]
    rcases List.mem_cons.mp h with rfl | hx
    · exact Nat.le_max_left _ _
    · exact Nat.le_trans (ih hx) (Nat.le_max_right _ _)

/-- Relabelling a permutation of `1..n` through a map that is injective on
`1..n` and carries `1..n` onto itself yields a permutation of `1..n`. -/
theorem map_perm_range' {L : List Nat} {τ : Nat → Nat} {n : Nat}
    (hp : List.Perm L (List.range' 1 n))
    (hinj : ∀ a ∈ List.range' 1 n, ∀ b ∈ List.range' 1 n, τ a = τ b → a = b)
    (hmem : ∀ a ∈ List.range' 1 n, τ a ∈ List.range' 1 n)
    (hsurj : ∀ m ∈ List.range' 1 n, ∃ a ∈ List.range' 1 n, τ a = m) :
    List.Perm (L.map τ) (List.range' 1 n) := by
  refine (hp.map τ).trans ?_
  have hnd : (List.range' 1 n).Nodup := List.nodup_range' 1 n
  refine (List.perm_ext_iff_of_nodup (hnd.map_on hinj) hnd).mpr fun m => ?_
  constructor
  · intro hm
    rcases List.mem_map.mp hm with ⟨a, ha, rfl⟩
    exact hmem a ha
  · intro hm
    rcases hsurj m hm with ⟨a, ha, rfl⟩
    exact List.mem_map_of_mem τ ha

theorem positions_map_eq (q : List PatientQueue) (f : PatientQueue → PatientQueue)
    (h : ∀ x ∈ q, (f x).position = x.position) :
    positions (q.map f) = positions q := by
  simp only [positions, List.map_map]
  exact List.map_congr_left fun a ha => h a ha

theorem pksNodup_of_map (q : List PatientQueue) (f : PatientQueue → PatientQueue)
    (h : ∀ x ∈ q, (f x).pk = x.pk) (hn : PksNodup q) : PksNodup (q.map f) := by
  unfold PksNodup at *
  rw [List.map_map]
  have hcongr : List.map ((·.pk) ∘ f) q = List.map (·.pk) q :=
    List.map_congr_left fun a ha => h a ha
  rwa [hcongr]

theorem densePos_of_eq {q q' : List PatientQueue}
    (hpos : positions q' = positions q) (hlen : q'.length = q.length)
    (hd : DensePos q) : DensePos q' := by
  unfold DensePos at *
  rw [hpos, hlen]
  exact hd

theorem find?_pk_eq {q : List PatientQueue} {pk : Nat} {e : PatientQueue}
    (h : q.find? (fun x => decide (x.pk = pk)) = some e) : e ∈ q ∧ e.pk = pk :=
  ⟨List.mem_of_find?_eq_some h, by simpa using List.find?_some h⟩

theorem eq_of_pk_eq {q : List PatientQueue} (hn : PksNodup q)
    {x e : PatientQueue} (hx : x ∈ q) (he : e ∈ q) (h : x.pk = e.pk) : x = e :=
  List.inj_on_of_nodup_map hn hx he h

theorem positions_nodup {q : List PatientQueue} (hd : DensePos q) :
    (positions q).Nodup :=
  (List.Perm.nodup_iff hd).mpr (List.nodup_range' 1 q.length)

theorem eq_of_position_eq {q : List PatientQueue} (hd : DensePos q)
    {x e : PatientQueue} (hx : x ∈ q) (he : e ∈ q)
    (h : x.position = e.position) : x = e :=
  List.inj_on_of_nodup_map (positions_nodup hd) hx he h

theorem position_mem_range {q : List PatientQueue} (hd : DensePos q)
    {e : PatientQueue} (he : e ∈ q) :
    1 ≤ e.position ∧ e.position < 1 + q.length := by
  have h1 : e.position ∈ positions q := List.mem_map_of_mem _ he
  exact List.mem_range'_1.mp (hd.mem_iff.mp h1)

theorem maxPosition_of_dense {q : List PatientQueue} (hd : DensePos q) :
    maxPosition q = q.length := by
  unfold maxPosition
  apply Nat.le_antisymm
  · refine foldr_max_le fun x hx => ?_
    have := List.mem_range'_1.mp (hd.mem_iff.mp hx)
    omega
  · rcases Nat.eq_zero_or_pos q.length with h0 | hpos
    · rw [h0]
      exact Nat.zero_le _
    · refine le_foldr_max (hd.mem_iff.mpr ?_)
      rw [List.mem_range'_1]
      omega

theorem mark_as_emergency_positions {q : List PatientQueue} {pk : Nat}
    {e : PatientQueue} (hn : PksNodup q) (hd : DensePos q)
    (hf : q.find? (fun x => decide (x.pk = pk)) = some e) :
    positions (mark_as_emergency q pk) =
      (positions q).map (promoteShift e.position) := by
  obtain ⟨he, hepk⟩ := find?_pk_eq hf
  unfold mark_as_emergency
  rw [hf]
  simp only [positions, List.map_map]
  apply List.map_congr_left
  intro x hx
  simp only [Function.comp_apply]
  by_cases hpk : x.pk = pk
  · have hx_eq : x = e := eq_of_pk_eq hn hx he (hpk.trans hepk.symm)
    subst hx_eq
    simp [promoteShift, hpk]
  · have hne : x.position ≠ e.position := fun hcontra =>
      hpk (by rw [eq_of_position_eq hd hx he hcontra, hepk])
    by_cases hlt : x.position < e.position
    · simp [promoteShift, hpk, hlt, hne]
    · simp [promoteShift, hpk, hlt, hne]

theorem update_position_positions {q : List PatientQueue} {pk j : Nat}
    {e : PatientQueue} (hn : PksNodup q) (hd : DensePos q)
    (hf : q.find? (fun x => decide (x.pk = pk)) = some e) :
    positions (update_position q pk j) =
      (positions q).map (reposShift e.position j) := by
  obtain ⟨he, hepk⟩ := find?_pk_eq hf
  unfold update_position
  rw [hf]
  simp only [positions, List.map_map]
  apply List.map_congr_left
  intro x hx
  simp only [Function.comp_apply]
  by_cases hpk : x.pk = pk
  · have hx_eq : x = e := eq_of_pk_eq hn hx he (hpk.trans hepk.symm)
    subst hx_eq
    simp [reposShift, hpk]
  · have hne : x.position ≠ e.position := fun hcontra =>
      hpk (by rw [eq_of_position_eq hd hx he hcontra, hepk])
    simp only [hpk, if_false]
    unfold reposShift
    by_cases h1 : j < e.position ∧ j ≤ x.position ∧ x.position < e.position
    · rw [if_pos h1]
      rw [if_neg hne, if_pos ⟨h1.2.1, h1.2.2⟩]
    · rw [if_neg h1]
      by_cases h2 : e.position < j ∧ e.position < x.position ∧ x.position ≤ j
      · rw [if_pos h2]
        rw [if_neg hne, if_neg (by omega), if_pos ⟨h2.2.1, h2.2.2⟩]
      · rw [if_neg h2]
        rw [if_neg hne, if_neg (by omega), if_neg (by omega)]

theorem densePos_mark_as_emergency (q : List PatientQueue) (pk : Nat)
    (hn : PksNodup q) (hd : DensePos q) : DensePos (mark_as_emergency q pk) := by
  cases hf : q.find? (fun x => decide (x.pk = pk)) with
  | none =>
    unfold mark_as_emergency
    rw [hf]
    exact hd
  | some e =>
    obtain ⟨he, hepk⟩ := find?_pk_eq hf
    have hkb := position_mem_range hd he
    have hlen : (mark_as_emergency q pk).length = q.length := by
      unfold mark_as_emergency
      rw [hf]
      exact List.length_map _ _
    unfold DensePos
    rw [hlen, mark_as_emergency_positions hn hd hf]
    apply map_perm_range' hd
    · intro a ha b hb hab
      rw [List.mem_range'_1] at ha hb
      unfold promoteShift at hab
      split_ifs at hab <;> omega
    · intro a ha
      rw [List.mem_range'_1] at ha ⊢
      unfold promoteShift
      split_ifs <;> omega
    · intro m hm
      rw [List.mem_range'_1] at hm
      refine ⟨if m = 1 then e.position else if m ≤ e.position then m - 1 else m,
        ?_, ?_⟩
      · rw [List.mem_range'_1]
        split_ifs <;> omega
      · unfold promoteShift
        split_ifs <;> omega

theorem densePos_update_position (q : List PatientQueue) (pk j : Nat)
    (hn : PksNodup q) (hd : DensePos q)
    (hj : ∀ e ∈ q, e.pk = pk → 1 ≤ j ∧ j ≤ q.length) :
    DensePos (update_position q pk j) := by
  cases hf : q.find? (fun x => decide (x.pk = pk)) with
  | none =>
    unfold update_position
    rw [hf]
    exact hd
  | some e =>
    obtain ⟨he, hepk⟩ := find?_pk_eq hf
    have hkb := position_mem_range hd he
    obtain ⟨hj1, hj2⟩ := hj e he hepk
    have hlen : (update_position q pk j).length = q.length := by
      unfold update_position
      rw [hf]
      exact List.length_map _ _
    unfold DensePos
    rw [hlen, update_position_positions hn hd hf]
    apply map_perm_range' hd
    · intro a ha b hb hab
      rw [List.mem_range'_1] at ha hb
      unfold reposShift at hab
      split_ifs at hab <;> omega
    · intro a ha
      rw [List.mem_range'_1] at ha ⊢
      unfold reposShift
      split_ifs <;> omega
    · intro m hm
      rw [List.mem_range'_1] at hm
      refine ⟨if m = j then e.position
        else if j < m ∧ m ≤ e.position then m - 1
        else if e.position ≤ m ∧ m < j then m + 1
        else m, ?_, ?_⟩
      · rw [List.mem_range'_1]
        split_ifs <;> omega
      · unfold reposShift
        split_ifs <;> omega

theorem densePos_check_in (q : List PatientQueue) (p : Nat)
    (hd : DensePos q) : DensePos (check_in_patient q p).2 := by
  unfold check_in_patient
  cases hb : q.any (fun e => decide (e.patient = p)) with
  | true => simpa using hd
  | false =>
    simp only [hb, Bool.false_eq_true, if_false]
    unfold DensePos
    have hpos : positions (q ++ [newEntry q p]) =
        positions q ++ [maxPosition q + 1] := by
      simp [positions, newEntry]
    rw [List.length_append, hpos, maxPosition_of_dense hd]
    simp only [List.length_singleton]
    rw [List.range'_1_concat]
    have harr : 1 + q.length = q.length + 1 := Nat.add_comm 1 q.length
    rw [harr]
    exact hd.append_right _

theorem densePos_status_map (q : List PatientQueue)
    (f : PatientQueue → PatientQueue)
    (h : ∀ x ∈ q, (f x).position = x.position) (hd : DensePos q) :
    DensePos (q.map f) :=
  densePos_of_eq (positions_map_eq q f h) (List.length_map q f) hd

theorem freshPk_not_mem (q : List PatientQueue) :
    freshPk q ∉ q.map (·.pk) := by
  intro hmem
  have := le_foldr_max hmem
  unfold freshPk at this
  omega

theorem pksNodup_check_in (q : List PatientQueue) (p : Nat)
    (hn : PksNodup q) : PksNodup (check_in_patient q p).2 := by
  unfold check_in_patient
  cases hb : q.any (fun e => decide (e.patient = p)) with
  | true => simpa using hn
  | false =>
    simp only [hb, Bool.false_eq_true, if_false]
    unfold PksNodup at *
    rw [List.map_append]
    rw [List.nodup_append]
    refine ⟨hn, List.nodup_singleton _, ?_⟩
    intro a ha hb2
    simp only [newEntry, List.map_cons, List.map_nil, List.mem_singleton] at hb2
    rw [hb2] at ha
    exact freshPk_not_mem q ha

theorem pksNodup_apply (op : Op) (q : List PatientQueue)
    (hn : PksNodup q) : PksNodup (apply op q) := by
  cases op with
  | enqueue p => exact pksNodup_check_in q p hn
  | callNext =>
    show PksNodup (call_next_patient q).2
    unfold call_next_patient
    cases q.find? (fun e => decide (e.status = QStatus.IN_PROGRESS)) with
    | some e => exact hn
    | none =>
      cases minByPosition (waitingEntries q) with
      | none => exact hn
      | some nxt =>
        dsimp only
        refine pksNodup_of_map q _ (fun x hx => ?_) hn
        by_cases h : x.pk = nxt.pk <;> simp [h]
  | startConsultation pk =>
    show PksNodup (start_consultation q pk).2
    unfold start_consultation
    cases q.find? (fun e => decide (e.pk = pk)) with
    | none => exact hn
    | some e =>
      dsimp only
      by_cases hs : e.status = QStatus.WAITING
      · rw [if_pos hs]
        refine pksNodup_of_map q _ (fun x hx => ?_) hn
        by_cases h : x.pk = pk <;> simp [h]
      · rw [if_neg hs]
        exact hn
  | endConsultation pk =>
    show PksNodup (end_consultation q pk).2
    unfold end_consultation
    cases q.find? (fun e => decide (e.pk = pk)) with
    | none => exact hn
    | some e =>
      dsimp only
      by_cases hs : e.status = QStatus.IN_PROGRESS
      · rw [if_pos hs]
        refine pksNodup_of_map q _ (fun x hx => ?_) hn
        by_cases h : x.pk = pk <;> simp [h]
      · rw [if_neg hs]
        exact hn
  | markNoShow pk =>
    show PksNodup (mark_no_show q pk).2
    unfold mark_no_show
    cases q.find? (fun e => decide (e.pk = pk)) with
    | none => exact hn
    | some e =>
      dsimp only
      by_cases hs : e.status = QStatus.WAITING ∨ e.status = QStatus.EMERGENCY
      · rw [if_pos hs]
        refine pksNodup_of_map q _ (fun x hx => ?_) hn
        by_cases h : x.pk = pk <;> simp [h]
      · rw [if_neg hs]
        exact hn
  | promoteToEmergency pk =>
    show PksNodup (mark_as_emergency q pk)
    unfold mark_as_emergency
    cases q.find? (fun e => decide (e.pk = pk)) with
    | none => exact hn
    | some e =>
      dsimp only
      refine pksNodup_of_map q _ (fun x hx => ?_) hn
      by_cases h : x.pk = pk
      · simp [h]
      · by_cases h2 : x.position < e.position <;> simp [h, h2]
  | reposition pk j =>
    show PksNodup (update_position q pk j)
    unfold update_position
    cases q.find? (fun e => decide (e.pk = pk)) with
    | none => exact hn
    | some e =>
      dsimp only
      refine pksNodup_of_map q _ (fun x hx => ?_) hn
      by_cases h : x.pk = pk
      · simp [h]
      · by_cases h2 : j < e.position ∧ j ≤ x.position ∧ x.position < e.position
        · simp [h, h2]
        · by_cases h3 : e.position < j ∧ e.position < x.position ∧ x.position ≤ j
            <;> simp [h, h2, h3]

theorem countP_pk_le_one (q : List PatientQueue) (t : Nat) (hn : PksNodup q) :
    q.countP (fun x => decide (x.pk = t)) ≤ 1 := by
  induction q with
  | nil => simp
  | cons a l ih =>
    unfold PksNodup at hn
    rw [List.map_cons, List.nodup_cons] at hn
    obtain ⟨hna, hnl⟩ := hn
    rw [List.countP_cons]
    by_cases h : a.pk = t
    · have hz : l.countP (fun x => decide (x.pk = t)) = 0 := by
        rw [List.countP_eq_zero]
        intro x hx hdec
        apply hna
        have hxt : x.pk = t := of_decide_eq_true hdec
        rw [h, ← hxt]
        exact List.mem_map_of_mem _ hx
      simp [h, hz]
    · have hfa : (decide (a.pk = t)) = false := by simp [h]
      rw [hfa]
      simpa using ih hnl

theorem inProgressCount_check_in (q : List PatientQueue) (p : Nat) :
    inProgressCount (check_in_patient q p).2 = inProgressCount q := by
  unfold check_in_patient
  cases hb : q.any (fun e => decide (e.patient = p)) with
  | true => simp [hb]
  | false =>
    simp only [hb, Bool.false_eq_true, if_false]
    show inProgressCount (q ++ [newEntry q p]) = inProgressCount q
    unfold inProgressCount
    rw [List.countP_append]
    simp [newEntry]

theorem inProgressCount_map_le (q : List PatientQueue)
    (f : PatientQueue → PatientQueue)
    (h : ∀ x ∈ q, (f x).status = QStatus.IN_PROGRESS →
      x.status = QStatus.IN_PROGRESS) :
    inProgressCount (q.map f) ≤ inProgressCount q := by
  unfold inProgressCount
  rw [List.countP_map]
  refine List.countP_mono_left fun x hx hpx => ?_
  simp only [Function.comp_apply, decide_eq_true_eq] at hpx ⊢
  exact h x hx hpx

theorem inProgressCount_call_next (q : List PatientQueue)
    (hn : PksNodup q) (hc : inProgressCount q ≤ 1) :
    inProgressCount (call_next_patient q).2 ≤ 1 := by
  unfold call_next_patient
  cases hf : q.find? (fun e => decide (e.status = QStatus.IN_PROGRESS)) with
  | some e =>
    dsimp only
    exact hc
  | none =>
    have hz : ∀ x ∈ q, ¬ x.status = QStatus.IN_PROGRESS := by
      intro x hx
      have := List.find?_eq_none.mp hf x hx
      simpa using this
    cases hm : minByPosition (waitingEntries q) with
    | none =>
      dsimp only
      exact hc
    | some nxt =>
      dsimp only
      have hle : inProgressCount
          (q.map fun e =>
            if e.pk = nxt.pk then { e with status := QStatus.IN_PROGRESS } else e)
          ≤ q.countP (fun x => decide (x.pk = nxt.pk)) := by
        unfold inProgressCount
        rw [List.countP_map]
        refine List.countP_mono_left fun x hx hpx => ?_
        simp only [Function.comp_apply, decide_eq_true_eq] at hpx ⊢
        by_cases hpk : x.pk = nxt.pk
        · exact hpk
        · rw [if_neg hpk] at hpx
          exact absurd hpx (hz x hx)
      exact le_trans hle (countP_pk_le_one q nxt.pk hn)

theorem invariantC1 (q : List PatientQueue)
    (h : ReachableW NoStartConsult q) : PksNodup q ∧ inProgressCount q ≤ 1 := by
  induction h with
  | init => exact ⟨by simp [PksNodup], by simp [inProgressCount]⟩
  | step op q hP hr ih =>
    obtain ⟨hn, hc⟩ := ih
    refine ⟨pksNodup_apply op q hn, ?_⟩
    cases op with
    | enqueue p =>
      show inProgressCount (check_in_patient q p).2 ≤ 1
      rw [inProgressCount_check_in]
      exact hc
    | callNext => exact inProgressCount_call_next q hn hc
    | startConsultation pk => exact absurd rfl (hP pk)
    | endConsultation pk =>
      show inProgressCount (end_consultation q pk).2 ≤ 1
      unfold end_consultation
      cases q.find? (fun e => decide (e.pk = pk)) with
      | none => exact hc
      | some e =>
        dsimp only
        by_cases hs : e.status = QStatus.IN_PROGRESS
        · rw [if_pos hs]
          refine le_trans (inProgressCount_map_le q _ fun x hx hfx => ?_) hc
          by_cases hpk : x.pk = pk
          · rw [if_pos hpk] at hfx
            simp at hfx
          · rwa [if_neg hpk] at hfx
        · rw [if_neg hs]
          exact hc
    | markNoShow pk =>
      show inProgressCount (mark_no_show q pk).2 ≤ 1
      unfold mark_no_show
      cases q.find? (fun e => decide (e.pk = pk)) with
      | none => exact hc
      | some e =>
        dsimp only
        by_cases hs : e.status = QStatus.WAITING ∨ e.status = QStatus.EMERGENCY
        · rw [if_pos hs]
          refine le_trans (inProgressCount_map_le q _ fun x hx hfx => ?_) hc
          by_cases hpk : x.pk = pk
          · rw [if_pos hpk] at hfx
            simp at hfx
          · rwa [if_neg hpk] at hfx
        · rw [if_neg hs]
          exact hc
    | promoteToEmergency pk =>
      show inProgressCount (mark_as_emergency q pk) ≤ 1
      unfold mark_as_emergency
      cases q.find? (fun e => decide (e.pk = pk)) with
      | none => exact hc
      | some e =>
        dsimp only
        refine le_trans (inProgressCount_map_le q _ fun x hx hfx => ?_) hc
        by_cases hpk : x.pk = pk
        · rw [if_pos hpk] at hfx
          simp at hfx
        · rw [if_neg hpk] at hfx
          by_cases h2 : x.position < e.position
          · rwa [if_pos h2] at hfx
          · rwa [if_neg h2] at hfx
    | reposition pk j =>
      show inProgressCount (update_position q pk j) ≤ 1
      unfold update_position
      cases q.find? (fun e => decide (e.pk = pk)) with
      | none => exact hc
      | some e =>
        dsimp only
        refine le_trans (inProgressCount_map_le q _ fun x hx hfx => ?_) hc
        by_cases hpk : x.pk = pk
        · rwa [if_pos hpk] at hfx
        · rw [if_neg hpk] at hfx
          by_cases h2 : j < e.position ∧ j ≤ x.position ∧ x.position < e.position
          · rwa [if_pos h2] at hfx
          · rw [if_neg h2] at hfx
            by_cases h3 : e.position < j ∧ e.position < x.position ∧ x.position ≤ j
            · rwa [if_pos h3] at hfx
            · rwa [if_neg h3] at hfx

theorem find?_of_mem_pk {q : List PatientQueue} {e : PatientQueue} {pk : Nat}
    (hn : PksNodup q) (he : e ∈ q) (hepk : e.pk = pk) :
    q.find? (fun x => decide (x.pk = pk)) = some e := by
  cases hf : q.find? (fun x => decide (x.pk = pk)) with
  | none =>
    exfalso
    have := List.find?_eq_none.mp hf e he
    simp [hepk] at this
  | some e0 =>
    obtain ⟨he0, he0pk⟩ := find?_pk_eq hf
    rw [eq_of_pk_eq hn he0 he (he0pk.trans hepk.symm)]

theorem invariantC2 (q : List PatientQueue) (h : ReachableW OrderOpOk q) :
    PksNodup q ∧ DensePos q ∧ AllActive q := by
  induction h with
  | init =>
    refine ⟨by simp [PksNodup], by simp [DensePos, positions], ?_⟩
    intro e he
    cases he
  | step op q hP hr ih =>
    obtain ⟨hn, hd, ha⟩ := ih
    refine ⟨pksNodup_apply op q hn, ?_, ?_⟩
    · cases op with
      | enqueue p => exact densePos_check_in q p hd
      | promoteToEmergency pk => exact densePos_mark_as_emergency q pk hn hd
      | reposition pk j => exact densePos_update_position q pk j hn hd hP
      | callNext => exact False.elim hP
      | startConsultation pk => exact False.elim hP
      | endConsultation pk => exact False.elim hP
      | markNoShow pk => exact False.elim hP
    · cases op with
      | enqueue p =>
        show AllActive (check_in_patient q p).2
        unfold check_in_patient
        cases hb : q.any (fun e => decide (e.patient = p)) with
        | true => simpa using ha
        | false =>
          simp only [hb, Bool.false_eq_true, if_false]
          intro e he
          rcases List.mem_append.mp he with hmem | hmem
          · exact ha e hmem
          · rw [List.mem_singleton.mp hmem]
            left
            rfl
      | promoteToEmergency pk =>
        show AllActive (mark_as_emergency q pk)
        unfold mark_as_emergency
        cases q.find? (fun x => decide (x.pk = pk)) with
        | none => exact ha
        | some e0 =>
          intro x hx
          rcases List.mem_map.mp hx with ⟨y, hy, rfl⟩
          by_cases hpk : y.pk = pk
          · right
            simp [hpk]
          · rw [if_neg hpk]
            by_cases h2 : y.position < e0.position
            · rw [if_pos h2]
              exact ha y hy
            · rw [if_neg h2]
              exact ha y hy
      | reposition pk j =>
        show AllActive (update_position q pk j)
        unfold update_position
        cases q.find? (fun x => decide (x.pk = pk)) with
        | none => exact ha
        | some e0 =>
          intro x hx
          rcases List.mem_map.mp hx with ⟨y, hy, rfl⟩
          by_cases hpk : y.pk = pk
          · rw [if_pos hpk]
            exact ha y hy
          · rw [if_neg hpk]
            by_cases h2 : j < e0.position ∧ j ≤ y.position ∧ y.position < e0.position
            · rw [if_pos h2]
              exact ha y hy
            · rw [if_neg h2]
              by_cases h3 : e0.position < j ∧ e0.position < y.position ∧ y.position ≤ j
              · rw [if_pos h3]
                exact ha y hy
              · rw [if_neg h3]
                exact ha y hy
      | callNext => exact False.elim hP
      | startConsultation pk => exact False.elim hP
      | endConsultation pk => exact False.elim hP
      | markNoShow pk => exact False.elim hP

theorem activeEntries_of_allActive {q : List PatientQueue}
    (ha : AllActive q) : activeEntries q = q := by
  unfold activeEntries
  rw [List.filter_eq_self]
  intro e he
  rcases ha e he with h | h <;> simp [h]

/-- C1 (amended): after any sequence of the queue operations other than
start_consultation, at most one entry of the queue is IN_PROGRESS; and
call_next fails, leaving the queue unchanged, whenever some entry is
already IN_PROGRESS.  (start_consultation checks only that its target is
WAITING, so it can create a second IN_PROGRESS entry.) -/
theorem C1_amended_thm :
    (∀ q, ReachableW NoStartConsult q → inProgressCount q ≤ 1)
    ∧ (∀ q, (∃ e ∈ q, e.status = QStatus.IN_PROGRESS) →
        call_next_patient q = (CallResult.consultationInProgress, q)) := by
  constructor
  · intro q h
    exact (invariantC1 q h).2
  · intro q hq
    obtain ⟨e, he, hs⟩ := hq
    unfold call_next_patient
    cases hf : q.find? (fun x => decide (x.status = QStatus.IN_PROGRESS)) with
    | some x => rfl
    | none =>
      exfalso
      have := List.find?_eq_none.mp hf e he
      simp [hs] at this

/-- C1 counterexample: from the empty queue, enqueue two patients, call
the first (making it IN_PROGRESS), then start_consultation on the second:
the operation succeeds instead of failing and two entries of the same
queue end up IN_PROGRESS. -/
theorem C1_counterexample :
    inProgressCount (applyTrace [Op.enqueue 1, Op.enqueue 2, Op.callNext,
      Op.startConsultation 2] []) = 2
    ∧ (start_consultation
        (applyTrace [Op.enqueue 1, Op.enqueue 2, Op.callNext] []) 2).1
        = OpResult.ok 2
    ∧ inProgressCount
        (applyTrace [Op.enqueue 1, Op.enqueue 2, Op.callNext] []) = 1 :=
  ⟨by decide, by decide, by decide⟩

theorem C1_witness :
    inProgressCount (applyTrace [Op.enqueue 1, Op.enqueue 2, Op.callNext] []) ≤ 1
    ∧ call_next_patient
        [{ pk := 1, patient := 1, position := 1, status := QStatus.IN_PROGRESS,
           is_emergency := false, estimated_time := 30 }]
      = (CallResult.consultationInProgress,
         [{ pk := 1, patient := 1, position := 1, status := QStatus.IN_PROGRESS,
            is_emergency := false, estimated_time := 30 }]) := by
  constructor
  · exact C1_amended_thm.1 _
      (ReachableW.step Op.callNext _ (fun pk h => Op.noConfusion h)
        (ReachableW.step (Op.enqueue 2) _ (fun pk h => Op.noConfusion h)
          (ReachableW.step (Op.enqueue 1) _ (fun pk h => Op.noConfusion h)
            ReachableW.init)))
  · exact C1_amended_thm.2 _
      ⟨{ pk := 1, patient := 1, position := 1, status := QStatus.IN_PROGRESS,
         is_emergency := false, estimated_time := 30 }, by simp, rfl⟩

/-- C2 (amended): after any sequence of enqueue, reposition and
promote_to_emergency operations in which every reposition targets a
position between 1 and the current number of entries, the positions of
the active (non-terminal) entries are a dense permutation of 1..N; and
reposition moves the targeted row to new_position, adds one to exactly
the other rows with positions in [new_position, old_position), and
subtracts one from exactly the other rows with positions in
(old_position, new_position], leaving all remaining positions unchanged. -/
theorem C2_amended_thm :
    (∀ q, ReachableW OrderOpOk q →
      List.Perm (positions (activeEntries q))
        (List.range' 1 (activeEntries q).length))
    ∧ (∀ q pk j e, PksNodup q → e ∈ q → e.pk = pk →
        ∀ x ∈ q, ∃ x' ∈ update_position q pk j, x'.pk = x.pk ∧
          x'.position =
            (if x.pk = pk then j
             else if j ≤ x.position ∧ x.position < e.position then x.position + 1
             else if e.position < x.position ∧ x.position ≤ j then x.position - 1
             else x.position)) := by
  constructor
  · intro q h
    obtain ⟨hn, hd, ha⟩ := invariantC2 q h
    rw [activeEntries_of_allActive ha]
    exact hd
  · intro q pk j e hn he hepk x hx
    unfold update_position
    rw [find?_of_mem_pk hn he hepk]
    refine ⟨_, List.mem_map_of_mem _ hx, ?_, ?_⟩
    · dsimp only
      by_cases hpk : x.pk = pk
      · simp [hpk]
      · rw [if_neg hpk]
        by_cases h2 : j < e.position ∧ j ≤ x.position ∧ x.position < e.position
        · simp [h2]
        · rw [if_neg h2]
          by_cases h3 : e.position < j ∧ e.position < x.position ∧ x.position ≤ j
          · simp [h3]
          · rw [if_neg h3]
    · dsimp only
      by_cases hpk : x.pk = pk
      · simp [hpk]
      · rw [if_neg hpk, if_neg hpk]
        by_cases h2 : j ≤ x.position ∧ x.position < e.position
        · rw [if_pos h2, if_pos ⟨by omega, h2.1, h2.2⟩]
        · rw [if_neg h2, if_neg (fun hx2 => h2 ⟨hx2.2.1, hx2.2.2⟩)]
          by_cases h3 : e.position < x.position ∧ x.position ≤ j
          · rw [if_pos h3, if_pos ⟨by omega, h3.1, h3.2⟩]
          · rw [if_neg h3, if_neg (fun hx3 => h3 ⟨hx3.2.1, hx3.2.2⟩)]

/-- C2 counterexample: enqueue two patients, then reposition the first row
to position 5 (a call `update_position` accepts): positions become [5, 1],
not a dense sequence 1..2. -/
theorem C2_counterexample :
    positions (activeEntries
      (applyTrace [Op.enqueue 1, Op.enqueue 2, Op.reposition 1 5] [])) = [5, 1]
    ∧ ¬ List.Perm
        (positions (activeEntries
          (applyTrace [Op.enqueue 1, Op.enqueue 2, Op.reposition 1 5] [])))
        (List.range' 1 (activeEntries
          (applyTrace [Op.enqueue 1, Op.enqueue 2, Op.reposition 1 5] [])).length) := by
  refine ⟨by decide, fun h => ?_⟩
  exact absurd (h.mem_iff.mp (by decide : (5 : Nat) ∈ _)) (by decide)

theorem C2_witness :
    List.Perm (positions (activeEntries
      (applyTrace [Op.enqueue 7, Op.enqueue 8, Op.reposition 1 2] [])))
      (List.range' 1 (activeEntries
        (applyTrace [Op.enqueue 7, Op.enqueue 8, Op.reposition 1 2] [])).length)
    ∧ (∃ x' ∈ update_position
        [{ pk := 1, patient := 7, position := 1, status := QStatus.WAITING,
           is_emergency := false, estimated_time := 30 },
         { pk := 2, patient := 8, position := 2, status := QStatus.WAITING,
           is_emergency := false, estimated_time := 60 }] 1 2,
        x'.pk = 2 ∧ x'.position = 1) := by
  constructor
  · exact C2_amended_thm.1 _
      (ReachableW.step (Op.reposition 1 2) _
        (fun e he hpk => ⟨by decide, by decide⟩)
        (ReachableW.step (Op.enqueue 8) _ trivial
          (ReachableW.step (Op.enqueue 7) _ trivial ReachableW.init)))
  · obtain ⟨x', hmem, hpk, hpos⟩ :=
      C2_amended_thm.2
        [{ pk := 1, patient := 7, position := 1, status := QStatus.WAITING,
           is_emergency := false, estimated_time := 30 },
         { pk := 2, patient := 8, position := 2, status := QStatus.WAITING,
           is_emergency := false, estimated_time := 60 }] 1 2
        { pk := 1, patient := 7, position := 1, status := QStatus.WAITING,
          is_emergency := false, estimated_time := 30 }
        (by unfold PksNodup; decide) (by decide) rfl
        { pk := 2, patient := 8, position := 2, status := QStatus.WAITING,
          is_emergency := false, estimated_time := 60 } (by decide)
    exact ⟨x', hmem, hpk, by simpa using hpos⟩

/-- C3: promote_to_emergency on the entry at position k of a queue whose
positions are a dense permutation of 1..n puts that entry at position 1
with status EMERGENCY and is_emergency set, adds one to the position of
exactly the rows that previously had position strictly below k, leaves
the positions of the other rows unchanged, and preserves the sum of all
positions. -/
theorem C3_thm (q : List PatientQueue) (pk : Nat) (e : PatientQueue)
    (hn : PksNodup q) (hd : DensePos q) (he : e ∈ q) (hepk : e.pk = pk) :
    (∃ e' ∈ mark_as_emergency q pk, e'.pk = pk ∧ e'.position = 1 ∧
      e'.status = QStatus.EMERGENCY ∧ e'.is_emergency = true)
    ∧ (∀ x ∈ q, x.pk ≠ pk → ∃ x' ∈ mark_as_emergency q pk, x'.pk = x.pk ∧
        (x.position < e.position → x'.position = x.position + 1) ∧
        (e.position ≤ x.position → x'.position = x.position))
    ∧ (positions (mark_as_emergency q pk)).sum = (positions q).sum := by
  have hf := find?_of_mem_pk hn he hepk
  refine ⟨?_, ?_, ?_⟩
  · unfold mark_as_emergency
    rw [hf]
    refine ⟨_, List.mem_map_of_mem _ he, ?_⟩
    simp [hepk]
  · intro x hx hxpk
    unfold mark_as_emergency
    rw [hf]
    refine ⟨_, List.mem_map_of_mem _ hx, ?_⟩
    dsimp only
    rw [if_neg hxpk]
    by_cases h2 : x.position < e.position
    · rw [if_pos h2]
      exact ⟨rfl, fun _ => rfl, fun hc => absurd h2 (by omega)⟩
    · rw [if_neg h2]
      exact ⟨rfl, fun hc => absurd hc h2, fun _ => rfl⟩
  · have hlen : (mark_as_emergency q pk).length = q.length := by
      unfold mark_as_emergency
      rw [hf]
      exact List.length_map _ _
    have hd2 : DensePos (mark_as_emergency q pk) :=
      densePos_mark_as_emergency q pk hn hd
    unfold DensePos at hd2
    rw [hlen] at hd2
    rw [hd2.sum_eq, hd.sum_eq]

theorem C3_witness :
    ∃ e' ∈ mark_as_emergency
      [{ pk := 1, patient := 10, position := 1, status := QStatus.WAITING,
         is_emergency := false, estimated_time := 30 },
       { pk := 2, patient := 11, position := 2, status := QStatus.WAITING,
         is_emergency := false, estimated_time := 60 },
       { pk := 3, patient := 12, position := 3, status := QStatus.WAITING,
         is_emergency := false, estimated_time := 90 }] 3,
      e'.pk = 3 ∧ e'.position = 1 ∧
      e'.status = QStatus.EMERGENCY ∧ e'.is_emergency = true :=
  (C3_thm _ 3
    { pk := 3, patient := 12, position := 3, status := QStatus.WAITING,
      is_emergency := false, estimated_time := 90 }
    (by unfold PksNodup; decide) (by unfold DensePos; decide) (by decide) rfl).1

theorem slotWalk_le (fuel : Nat) :
    ∀ (cur e d : Nat), ∀ x ∈ slotWalk fuel cur e d, cur ≤ x := by
  induction fuel with
  | zero =>
    intro cur e d x hx
    simp [slotWalk] at hx
  | succ n ih =>
    intro cur e d x hx
    unfold slotWalk at hx
    by_cases h : cur + d ≤ e
    · rw [if_pos h] at hx
      rcases List.mem_cons.mp hx with rfl | hx2
      · exact Nat.le_refl x
      · exact Nat.le_trans (Nat.le_add_right cur d) (ih (cur + d) e d x hx2)
    · rw [if_neg h] at hx
      cases hx

theorem slotWalk_pairwise {d : Nat} (hd : 0 < d) (fuel : Nat) :
    ∀ (cur e : Nat), List.Pairwise (· < ·) (slotWalk fuel cur e d) := by
  induction fuel with
  | zero =>
    intro cur e
    simp [slotWalk]
  | succ n ih =>
    intro cur e
    unfold slotWalk
    by_cases h : cur + d ≤ e
    · rw [if_pos h]
      refine List.Pairwise.cons (fun x hx => ?_) (ih (cur + d) e)
      have := slotWalk_le n (cur + d) e d x hx
      omega
    · rw [if_neg h]
      exact List.Pairwise.nil

/-- C4 counterexample: for availability 09:00-17:00 (minutes 540..1020)
with 30-minute slots and no bookings, the source returns 15 start times,
not the claimed 16: the grid has 16 candidates but the result is capped
at 15 - (number of active appointments). -/
theorem C4_counterexample :
    (get_available_slots_for_date
      [{ doctor := 1, day_of_week := "MONDAY", start_time := 540,
         end_time := 1020, slot_duration := 30, is_active := true }]
      [] 1 0).length = 15
    ∧ ¬ (get_available_slots_for_date
      [{ doctor := 1, day_of_week := "MONDAY", start_time := 540,
         end_time := 1020, slot_duration := 30, is_active := true }]
      [] 1 0).length = 16 :=
  ⟨by decide, by decide⟩

/-- C4 (amended): for a doctor available 09:00-17:00 with 30-minute slots,
the grid walk yields the 16 candidate start times 09:00..16:30 (no
partial trailing slot), but with no bookings the returned sequence is the
first 15 of them, 09:00..16:00, because of the 15-per-day capacity cap;
after booking 09:00 the returned sequence is the 14 times 09:30..16:00 —
its first element is 09:30, and it excludes both the booked 09:00 and the
cap-truncated 16:30. -/
theorem C4_amended_thm :
    slotWalk 1021 540 1020 30 =
      [540, 570, 600, 630, 660, 690, 720, 750, 780, 810, 840, 870, 900,
       930, 960, 990]
    ∧ get_available_slots_for_date
        [{ doctor := 1, day_of_week := "MONDAY", start_time := 540,
           end_time := 1020, slot_duration := 30, is_active := true }]
        [] 1 0 =
      [540, 570, 600, 630, 660, 690, 720, 750, 780, 810, 840, 870, 900,
       930, 960]
    ∧ get_available_slots_for_date
        [{ doctor := 1, day_of_week := "MONDAY", start_time := 540,
           end_time := 1020, slot_duration := 30, is_active := true }]
        [{ id := 1, patient := 1, doctor := 1, appointment_date := 0,
           start_time := 540, end_time := 570, status := AStatus.SCHEDULED }]
        1 0 =
      [570, 600, 630, 660, 690, 720, 750, 780, 810, 840, 870, 900, 930, 960] :=
  ⟨by decide, by decide, by decide⟩

/-- C5: when an active availability is found for the doctor on the date's
weekday (with a positive slot duration), every returned slot is a grid
candidate that is not the start time of any SCHEDULED or CHECKED_IN
appointment of that doctor and date; with 15 or more such active
appointments the result is empty; and otherwise at most `15 - count`
remaining candidates are returned, in chronological order. -/
theorem C5_thm (avs : List DoctorAvailability) (apts : List Appointment)
    (doctor date : Nat) (availability : DoctorAvailability)
    (hfind : findAvailability avs doctor (weekdayName date) = some availability)
    (hdur : 0 < availability.slot_duration) :
    (∀ s ∈ get_available_slots_for_date avs apts doctor date,
      s ∈ slotWalk (slotFuel availability) availability.start_time
            availability.end_time availability.slot_duration ∧
      ∀ ap ∈ apts, ap.doctor = doctor → ap.appointment_date = date →
        isActiveStatus ap.status = true → ap.start_time ≠ s)
    ∧ (15 ≤ (activeAppointments apts doctor date).length →
        get_available_slots_for_date avs apts doctor date = [])
    ∧ (get_available_slots_for_date avs apts doctor date).length
        ≤ 15 - (activeAppointments apts doctor date).length
    ∧ List.Pairwise (· < ·) (get_available_slots_for_date avs apts doctor date)
    := by
  have hres : get_available_slots_for_date avs apts doctor date =
      (if 15 ≤ (activeAppointments apts doctor date).length then []
       else ((slotWalk (slotFuel availability) availability.start_time
          availability.end_time availability.slot_duration).filter
          (fun s => decide
            (s ∉ (activeAppointments apts doctor date).map (·.start_time)))).take
          (15 - (activeAppointments apts doctor date).length)) := by
    unfold get_available_slots_for_date
    rw [hfind]
  by_cases hc : 15 ≤ (activeAppointments apts doctor date).length
  · rw [hres, if_pos hc]
    exact ⟨fun s hs => absurd hs (List.not_mem_nil s), fun _ => rfl,
      Nat.zero_le _, List.Pairwise.nil⟩
  · rw [hres, if_neg hc]
    refine ⟨?_, fun h15 => absurd h15 hc, ?_, ?_⟩
    · intro s hs
      have hs1 : s ∈ (slotWalk (slotFuel availability) availability.start_time
          availability.end_time availability.slot_duration).filter
          (fun s => decide
            (s ∉ (activeAppointments apts doctor date).map (·.start_time))) :=
        List.mem_of_mem_take hs
      obtain ⟨hsl, hnb⟩ := List.mem_filter.mp hs1
      refine ⟨hsl, fun ap hap hdoc hdate hact hstart => ?_⟩
      have hnb2 : s ∉ (activeAppointments apts doctor date).map (·.start_time) :=
        of_decide_eq_true hnb
      apply hnb2
      refine List.mem_map.mpr ⟨ap, ?_, hstart⟩
      unfold activeAppointments
      refine List.mem_filter.mpr ⟨hap, ?_⟩
      simp [hdoc, hdate, hact]
    · rw [List.length_take]
      exact Nat.min_le_left _ _
    · refine List.Pairwise.sublist (List.take_sublist _ _) ?_
      exact List.Pairwise.filter _ (slotWalk_pairwise hdur _ _ _)

theorem C5_witness :
    (get_available_slots_for_date
      [{ doctor := 1, day_of_week := "MONDAY", start_time := 540,
         end_time := 1020, slot_duration := 30, is_active := true }]
      [] 1 0).length ≤ 15 - (activeAppointments [] 1 0).length
    ∧ List.Pairwise (· < ·) (get_available_slots_for_date
      [{ doctor := 1, day_of_week := "MONDAY", start_time := 540,
         end_time := 1020, slot_duration := 30, is_active := true }]
      [] 1 0) := by
  have h := C5_thm
    [{ doctor := 1, day_of_week := "MONDAY", start_time := 540,
       end_time := 1020, slot_duration := 30, is_active := true }]
    [] 1 0
    { doctor := 1, day_of_week := "MONDAY", start_time := 540,
      end_time := 1020, slot_duration := 30, is_active := true }
    (by decide) (by decide)
  exact ⟨h.2.2.1, h.2.2.2⟩

/-- C6: for a booking whose other validations pass (availability exists
for the date's weekday, date not in the past, no same-specialization
conflict, no appointment already at that doctor/date/start_time), the
write fails with the capacity validation error exactly when the doctor
already holds 15 or more active (SCHEDULED/CHECKED_IN) appointments on
that date — so a 15th active booking succeeds where a 16th fails — and
every booking that fails (the creator's no-availability error or any
validation error of `full_clean`) leaves the appointment table
unchanged. -/
theorem C6_thm (doctors : List Doctor) (avs : List DoctorAvailability)
    (apts : List Appointment)
    (patient doctor appointment_date start_time today : Nat)
    (availability : DoctorAvailability)
    (hav : findAvailability avs doctor (weekdayName appointment_date)
      = some availability)
    (hdate : today ≤ appointment_date)
    (hspec : ∀ x ∈ apts, ¬(x.patient = patient ∧
      x.appointment_date = appointment_date ∧
      specOf doctors x.doctor = specOf doctors doctor ∧
      isActiveStatus x.status = true))
    (huniq : ∀ x ∈ apts, ¬(x.doctor = doctor ∧
      x.appointment_date = appointment_date ∧ x.start_time = start_time)) :
    ((∃ errs, (book_appointment doctors avs apts patient doctor
        appointment_date start_time today).1 = BookResult.invalid errs ∧
        FullCleanError.model CleanError.capacityReached ∈ errs) ↔
      15 ≤ (activeAppointments apts doctor appointment_date).length)
    ∧ ((activeAppointments apts doctor appointment_date).length < 15 →
        book_appointment doctors avs apts patient doctor appointment_date
          start_time today =
        (BookResult.booked (newAppointment apts patient doctor
            appointment_date start_time availability),
         apts ++ [newAppointment apts patient doctor appointment_date
            start_time availability]))
    ∧ (∀ doctors2 avs2 apts2 patient2 doctor2 date2 startt2 today2 r l,
        book_appointment doctors2 avs2 apts2 patient2 doctor2 date2
          startt2 today2 = (r, l) →
        (∀ a, r ≠ BookResult.booked a) → l = apts2) := by
  have hid : ∀ x ∈ apts, x.id ≠ freshAptId apts := by
    intro x hx
    have hle : x.id ≤ (apts.map (·.id)).foldr max 0 :=
      le_foldr_max (List.mem_map_of_mem (·.id) hx)
    unfold freshAptId
    omega
  have hcl : clean doctors apts
      (newAppointment apts patient doctor appointment_date start_time
        availability) today =
      (if 15 ≤ (activeAppointments apts doctor appointment_date).length then
        Except.error CleanError.capacityReached
      else Except.ok ()) := by
    unfold clean newAppointment
    dsimp only
    rw [if_neg (by omega)]
    have hsf : (apts.filter (fun x => decide (x.patient = patient) &&
        decide (x.appointment_date = appointment_date) &&
        (specOf doctors x.doctor == specOf doctors doctor) &&
        isActiveStatus x.status && decide (x.id ≠ freshAptId apts))) = [] := by
      rw [List.filter_eq_nil_iff]
      intro x hx
      intro hcontra
      simp only [Bool.and_eq_true, decide_eq_true_eq, beq_iff_eq] at hcontra
      exact hspec x hx ⟨hcontra.1.1.1.1, hcontra.1.1.1.2, hcontra.1.1.2,
        hcontra.1.2⟩
    rw [hsf]
    simp only [List.length_nil, ne_eq, not_true_eq_false, if_false]
    have hcf : (apts.filter (fun x => decide (x.doctor = doctor) &&
        decide (x.appointment_date = appointment_date) &&
        isActiveStatus x.status && decide (x.id ≠ freshAptId apts))) =
        activeAppointments apts doctor appointment_date := by
      unfold activeAppointments
      apply List.filter_congr
      intro x hx
      have hxid : decide (x.id ≠ freshAptId apts) = true := by
        simp [hid x hx]
      rw [hxid]
      simp [Bool.and_comm, Bool.and_assoc, Bool.and_left_comm]
    rw [hcf]
  have hfc : full_clean doctors apts
      (newAppointment apts patient doctor appointment_date start_time
        availability) today =
      (if 15 ≤ (activeAppointments apts doctor appointment_date).length then
        [FullCleanError.model CleanError.capacityReached]
      else []) := by
    unfold full_clean
    rw [hcl]
    have huq : (apts.filter (fun x => decide
        (x.doctor = (newAppointment apts patient doctor appointment_date
          start_time availability).doctor) &&
        decide (x.appointment_date = (newAppointment apts patient doctor
          appointment_date start_time availability).appointment_date) &&
        decide (x.start_time = (newAppointment apts patient doctor
          appointment_date start_time availability).start_time) &&
        decide (x.id ≠ (newAppointment apts patient doctor appointment_date
          start_time availability).id))) = [] := by
      rw [List.filter_eq_nil_iff]
      intro x hx
      intro hcontra
      simp only [newAppointment, Bool.and_eq_true, decide_eq_true_eq]
        at hcontra
      exact huniq x hx ⟨hcontra.1.1.1, hcontra.1.1.2, hcontra.1.2⟩
    rw [huq]
    simp only [List.length_nil, ne_eq, not_true_eq_false, if_false,
      List.append_nil]
    by_cases hc : 15 ≤ (activeAppointments apts doctor appointment_date).length
    · rw [if_pos hc, if_pos hc]
    · rw [if_neg hc, if_neg hc]
  refine ⟨?_, ?_, ?_⟩
  · constructor
    · rintro ⟨errs, herrs, hmem⟩
      by_contra hc
      unfold book_appointment at herrs
      rw [hav] at herrs
      dsimp only at herrs
      rw [hfc, if_neg hc] at herrs
      simp at herrs
    · intro hge
      refine ⟨[FullCleanError.model CleanError.capacityReached], ?_, by simp⟩
      unfold book_appointment
      rw [hav]
      dsimp only
      rw [hfc, if_pos hge]
  · intro hlt
    unfold book_appointment
    rw [hav]
    dsimp only
    rw [hfc, if_neg (by omega)]
  · intro doctors2 avs2 apts2 patient2 doctor2 date2 startt2 today2 r l hb hnb
    unfold book_appointment at hb
    cases hfa : findAvailability avs2 doctor2 (weekdayName date2) with
    | none =>
      rw [hfa] at hb
      injection hb with h1 h2
      exact h2.symm
    | some av2 =>
      rw [hfa] at hb
      dsimp only at hb
      cases hfc2 : full_clean doctors2 apts2
          (newAppointment apts2 patient2 doctor2 date2 startt2 av2) today2 with
      | nil =>
        rw [hfc2] at hb
        injection hb with h1 h2
        exact absurd h1.symm (hnb _)
      | cons e es =>
        rw [hfc2] at hb
        injection hb with h1 h2
        exact h2.symm

theorem C6_witness :
    (∃ errs, (book_appointment [{ pk := 1, specialization := "GENERAL" }]
        [{ doctor := 1, day_of_week := "THURSDAY", start_time := 540,
           end_time := 1020, slot_duration := 30, is_active := true }]
        ((List.range 15).map (fun i =>
          { id := i + 2, patient := i + 2, doctor := 1,
            appointment_date := 10, start_time := 540 + 30 * i,
            end_time := 570 + 30 * i, status := AStatus.SCHEDULED }))
        100 1 10 500 5).1 = BookResult.invalid errs ∧
      FullCleanError.model CleanError.capacityReached ∈ errs)
    ∧ book_appointment [{ pk := 1, specialization := "GENERAL" }]
        [{ doctor := 1, day_of_week := "THURSDAY", start_time := 540,
           end_time := 1020, slot_duration := 30, is_active := true }]
        ((List.range 14).map (fun i =>
          { id := i + 2, patient := i + 2, doctor := 1,
            appointment_date := 10, start_time := 540 + 30 * i,
            end_time := 570 + 30 * i, status := AStatus.SCHEDULED }))
        100 1 10 500 5
      = (BookResult.booked (newAppointment
          ((List.range 14).map (fun i =>
            { id := i + 2, patient := i + 2, doctor := 1,
              appointment_date := 10, start_time := 540 + 30 * i,
              end_time := 570 + 30 * i, status := AStatus.SCHEDULED }))
          100 1 10 500
          { doctor := 1, day_of_week := "THURSDAY", start_time := 540,
            end_time := 1020, slot_duration := 30, is_active := true }),
         ((List.range 14).map (fun i =>
           { id := i + 2, patient := i + 2, doctor := 1,
             appointment_date := 10, start_time := 540 + 30 * i,
             end_time := 570 + 30 * i, status := AStatus.SCHEDULED })) ++
         [newAppointment
          ((List.range 14).map (fun i =>
            { id := i + 2, patient := i + 2, doctor := 1,
              appointment_date := 10, start_time := 540 + 30 * i,
              end_time := 570 + 30 * i, status := AStatus.SCHEDULED }))
          100 1 10 500
          { doctor := 1, day_of_week := "THURSDAY", start_time := 540,
            end_time := 1020, slot_duration := 30, is_active := true }]) := by
  constructor
  · exact (C6_thm [{ pk := 1, specialization := "GENERAL" }]
      [{ doctor := 1, day_of_week := "THURSDAY", start_time := 540,
         end_time := 1020, slot_duration := 30, is_active := true }]
      ((List.range 15).map (fun i =>
        { id := i + 2, patient := i + 2, doctor := 1, appointment_date := 10,
          start_time := 540 + 30 * i, end_time := 570 + 30 * i,
          status := AStatus.SCHEDULED }))
      100 1 10 500 5
      { doctor := 1, day_of_week := "THURSDAY", start_time := 540,
        end_time := 1020, slot_duration := 30, is_active := true }
      (by decide) (by decide) (by decide) (by decide)).1.mpr (by decide)
  · exact (C6_thm [{ pk := 1, specialization := "GENERAL" }]
      [{ doctor := 1, day_of_week := "THURSDAY", start_time := 540,
         end_time := 1020, slot_duration := 30, is_active := true }]
      ((List.range 14).map (fun i =>
        { id := i + 2, patient := i + 2, doctor := 1, appointment_date := 10,
          start_time := 540 + 30 * i, end_time := 570 + 30 * i,
          status := AStatus.SCHEDULED }))
      100 1 10 500 5
      { doctor := 1, day_of_week := "THURSDAY", start_time := 540,
        end_time := 1020, slot_duration := 30, is_active := true }
      (by decide) (by decide) (by decide) (by decide)).2.1 (by decide)

/-- C7: decoding a check-in code splits it on the dash and succeeds only
with exactly 3 tokens whose first is the literal QUEUE, whose second
parses as an integer and whose third parses as a YYYYMMDD date; the code
QUEUE-7-20250314 decodes to doctor 7 and 2025-03-14, while BADCODE and
QUEUE-abc-20250314 both decode to the structured failure value (the
source's `(None, None)`), not an exception. -/
theorem C7_thm :
    parse_qr_code "QUEUE-7-20250314".toList = some (7, (2025, 3, 14))
    ∧ parse_qr_code "BADCODE".toList = none
    ∧ parse_qr_code "QUEUE-abc-20250314".toList = none
    ∧ (∀ s d dt, parse_qr_code s = some (d, dt) →
        ∃ t0 t1 t2, splitDash (pyStrip s) = [t0, t1, t2] ∧
          t0 = "QUEUE".toList ∧ pyInt t1 = some d ∧ strptimeYmd t2 = some dt) := by
  refine ⟨by decide, by decide, by decide, ?_⟩
  intro s d dt h
  unfold parse_qr_code at h
  rcases hs : splitDash (pyStrip s) with _ | ⟨t0, _ | ⟨t1, _ | ⟨t2, _ | ⟨t3, r⟩⟩⟩⟩
    <;> rw [hs] at h
  · exact Option.noConfusion h
  · exact Option.noConfusion h
  · exact Option.noConfusion h
  · dsimp only at h
    by_cases ht0 : t0 = "QUEUE".toList
    · rw [if_pos ht0] at h
      refine ⟨t0, t1, t2, rfl, ht0, ?_⟩
      cases hi : pyInt t1 with
      | none =>
        rw [hi] at h
        exact Option.noConfusion h
      | some d2 =>
        rw [hi] at h
        cases hy : strptimeYmd t2 with
        | none =>
          rw [hy] at h
          exact Option.noConfusion h
        | some dt2 =>
          rw [hy] at h
          dsimp only at h
          injection h with h2
          injection h2 with hd hdt
          exact ⟨congrArg some hd, congrArg some hdt⟩
    · rw [if_neg ht0] at h
      exact Option.noConfusion h
  · exact Option.noConfusion h

theorem C7_witness :
    ∃ t0 t1 t2,
      splitDash (pyStrip "QUEUE-7-20250314".toList) = [t0, t1, t2] ∧
      t0 = "QUEUE".toList ∧ pyInt t1 = some 7 ∧
      strptimeYmd t2 = some (2025, 3, 14) :=
  C7_thm.2.2.2 "QUEUE-7-20250314".toList 7 (2025, 3, 14) (by decide)

/-- C8: check-in enqueue fails (AlreadyQueued-style failure, queue
unchanged, checked before the insert) exactly when the patient already
has an entry in the queue; otherwise it appends a WAITING entry whose
position is the current maximum position plus one (1 on an empty queue)
and whose estimated wait is position × 30 minutes. -/
theorem C8_thm (q : List PatientQueue) (p : Nat) :
    ((∃ e ∈ q, e.patient = p) →
      check_in_patient q p = (CheckInResult.alreadyCheckedIn, q))
    ∧ ((¬ ∃ e ∈ q, e.patient = p) →
      check_in_patient q p =
        (CheckInResult.ok (newEntry q p), q ++ [newEntry q p])
      ∧ (newEntry q p).status = QStatus.WAITING
      ∧ (newEntry q p).position = maxPosition q + 1
      ∧ (newEntry q p).estimated_time = (newEntry q p).position * 30
      ∧ (q = [] → (newEntry q p).position = 1)) := by
  constructor
  · intro hex
    obtain ⟨e, he, hep⟩ := hex
    have hb : q.any (fun e => decide (e.patient = p)) = true :=
      List.any_eq_true.mpr ⟨e, he, by simp [hep]⟩
    unfold check_in_patient
    rw [hb]
    simp
  · intro hne
    have hb : q.any (fun e => decide (e.patient = p)) = false := by
      rw [Bool.eq_false_iff]
      intro hany
      obtain ⟨e, he, hep⟩ := List.any_eq_true.mp hany
      exact hne ⟨e, he, of_decide_eq_true hep⟩
    unfold check_in_patient
    rw [hb]
    refine ⟨by simp, rfl, rfl, rfl, fun h0 => ?_⟩
    subst h0
    rfl

theorem C8_witness :
    check_in_patient
      [{ pk := 1, patient := 4, position := 1, status := QStatus.WAITING,
         is_emergency := false, estimated_time := 30 }] 4
      = (CheckInResult.alreadyCheckedIn,
         [{ pk := 1, patient := 4, position := 1, status := QStatus.WAITING,
            is_emergency := false, estimated_time := 30 }])
    ∧ (newEntry
        [{ pk := 1, patient := 4, position := 1, status := QStatus.WAITING,
           is_emergency := false, estimated_time := 30 }] 5).position
      = maxPosition
        [{ pk := 1, patient := 4, position := 1, status := QStatus.WAITING,
           is_emergency := false, estimated_time := 30 }] + 1 := by
  constructor
  · exact (C8_thm
      [{ pk := 1, patient := 4, position := 1, status := QStatus.WAITING,
         is_emergency := false, estimated_time := 30 }] 4).1
      ⟨{ pk := 1, patient := 4, position := 1, status := QStatus.WAITING,
         is_emergency := false, estimated_time := 30 }, by simp, rfl⟩
  · exact ((C8_thm
      [{ pk := 1, patient := 4, position := 1, status := QStatus.WAITING,
         is_emergency := false, estimated_time := 30 }] 5).2
      (by decide)).2.2.1

/-- C9: cancel flips an appointment from SCHEDULED to CANCELLED only when
a row with that id, owned by the requesting patient and currently
SCHEDULED, exists; whenever no such row exists (nonexistent id, a row in
another status such as CANCELLED, or a row owned by a different patient)
it returns the single not-found failure result with the table unchanged,
so those failure cases are indistinguishable to the caller; any failure
leaves the table unchanged. -/
theorem C9_thm (doctors : List Doctor) (apts : List Appointment)
    (appointment_id patient today : Nat) :
    ((¬ ∃ a ∈ apts, a.id = appointment_id ∧ a.patient = patient ∧
        a.status = AStatus.SCHEDULED) →
      cancel_appointment doctors apts appointment_id patient today =
        ((false, "Appointment not found or cannot be cancelled"), apts))
    ∧ (∀ r apts', cancel_appointment doctors apts appointment_id patient today
        = (r, apts') → r.1 = true →
        ∃ a ∈ apts, (a.id = appointment_id ∧ a.patient = patient ∧
          a.status = AStatus.SCHEDULED) ∧
          apts' = apts.map (fun x =>
            if x.id = a.id then { a with status := AStatus.CANCELLED } else x))
    ∧ (∀ r apts', cancel_appointment doctors apts appointment_id patient today
        = (r, apts') → r.1 = false → apts' = apts) := by
  refine ⟨?_, ?_, ?_⟩
  · intro hne
    have hf : apts.find? (fun a => decide (a.id = appointment_id) &&
        decide (a.patient = patient) &&
        decide (a.status = AStatus.SCHEDULED)) = none := by
      rw [List.find?_eq_none]
      intro a ha hp
      simp only [Bool.and_eq_true, decide_eq_true_eq] at hp
      exact hne ⟨a, ha, hp.1.1, hp.1.2, hp.2⟩
    unfold cancel_appointment
    rw [hf]
  · intro r apts' hc hr
    unfold cancel_appointment at hc
    cases hf : apts.find? (fun a => decide (a.id = appointment_id) &&
        decide (a.patient = patient) &&
        decide (a.status = AStatus.SCHEDULED)) with
    | none =>
      rw [hf] at hc
      dsimp only at hc
      injection hc with hc1 hc2
      rw [← hc1] at hr
      simp at hr
    | some a =>
      rw [hf] at hc
      have hmem := List.mem_of_find?_eq_some hf
      have hprops := List.find?_some hf
      simp only [Bool.and_eq_true, decide_eq_true_eq] at hprops
      refine ⟨a, hmem, ⟨hprops.1.1, hprops.1.2, hprops.2⟩, ?_⟩
      dsimp only at hc
      cases hcl : clean doctors apts { a with status := AStatus.CANCELLED }
          today with
      | error e =>
        rw [hcl] at hc
        dsimp only at hc
        injection hc with hc1 hc2
        rw [← hc1] at hr
        simp at hr
      | ok u =>
        rw [hcl] at hc
        dsimp only at hc
        injection hc with hc1 hc2
        exact hc2.symm
  · intro r apts' hc hr
    unfold cancel_appointment at hc
    cases hf : apts.find? (fun a => decide (a.id = appointment_id) &&
        decide (a.patient = patient) &&
        decide (a.status = AStatus.SCHEDULED)) with
    | none =>
      rw [hf] at hc
      dsimp only at hc
      injection hc with hc1 hc2
      exact hc2.symm
    | some a =>
      rw [hf] at hc
      dsimp only at hc
      cases hcl : clean doctors apts { a with status := AStatus.CANCELLED }
          today with
      | error e =>
        rw [hcl] at hc
        dsimp only at hc
        injection hc with hc1 hc2
        exact hc2.symm
      | ok u =>
        rw [hcl] at hc
        dsimp only at hc
        injection hc with hc1 hc2
        rw [← hc1] at hr
        simp at hr

theorem C9_witness :
    cancel_appointment []
      [{ id := 1, patient := 2, doctor := 1, appointment_date := 10,
         start_time := 540, end_time := 570, status := AStatus.SCHEDULED }]
      99 2 5
      = ((false, "Appointment not found or cannot be cancelled"),
         [{ id := 1, patient := 2, doctor := 1, appointment_date := 10,
            start_time := 540, end_time := 570, status := AStatus.SCHEDULED }])
    ∧ cancel_appointment []
      [{ id := 1, patient := 2, doctor := 1, appointment_date := 10,
         start_time := 540, end_time := 570, status := AStatus.SCHEDULED }]
      1 3 5
      = ((false, "Appointment not found or cannot be cancelled"),
         [{ id := 1, patient := 2, doctor := 1, appointment_date := 10,
            start_time := 540, end_time := 570, status := AStatus.SCHEDULED }])
    ∧ cancel_appointment []
      [{ id := 1, patient := 2, doctor := 1, appointment_date := 10,
         start_time := 540, end_time := 570, status := AStatus.CANCELLED }]
      1 2 5
      = ((false, "Appointment not found or cannot be cancelled"),
         [{ id := 1, patient := 2, doctor := 1, appointment_date := 10,
            start_time := 540, end_time := 570, status := AStatus.CANCELLED }]) := by
  refine ⟨?_, ?_, ?_⟩
  · exact (C9_thm []
      [{ id := 1, patient := 2, doctor := 1, appointment_date := 10,
         start_time := 540, end_time := 570, status := AStatus.SCHEDULED }]
      99 2 5).1 (by decide)
  · exact (C9_thm []
      [{ id := 1, patient := 2, doctor := 1, appointment_date := 10,
         start_time := 540, end_time := 570, status := AStatus.SCHEDULED }]
      1 3 5).1 (by decide)
  · exact (C9_thm []
      [{ id := 1, patient := 2, doctor := 1, appointment_date := 10,
         start_time := 540, end_time := 570, status := AStatus.CANCELLED }]
      1 2 5).1 (by decide)

/-- C10: the slot query is a total function of its inputs (the source's
catch-all converts every lookup failure to the empty list); an unknown
doctor id yields the empty list, exactly the value produced for a known
doctor with no active availability on the date's weekday, so the two
cases are indistinguishable to the caller. -/
theorem C10_thm (doctors : List Doctor) (avs : List DoctorAvailability)
    (apts : List Appointment) (doctor_id date : Nat) :
    ((∀ d ∈ doctors, d.pk ≠ doctor_id) →
      get_available_slots doctors avs apts doctor_id date = [])
    ∧ (∀ d, doctors.find? (fun x => decide (x.pk = doctor_id)) = some d →
        findAvailability avs doctor_id (weekdayName date) = none →
        get_available_slots doctors avs apts doctor_id date = []) := by
  constructor
  · intro h
    have hf : doctors.find? (fun x => decide (x.pk = doctor_id)) = none := by
      rw [List.find?_eq_none]
      intro x hx
      simpa using h x hx
    unfold get_available_slots
    rw [hf]
  · intro d hfd hav
    have hdpk : d.pk = doctor_id := by
      simpa using List.find?_some hfd
    unfold get_available_slots
    rw [hfd]
    dsimp only
    unfold get_available_slots_for_date
    rw [hdpk, hav]

theorem C10_witness :
    get_available_slots [] [] [] 3 0 = []
    ∧ get_available_slots [{ pk := 3, specialization := "GENERAL" }] [] [] 3 0
      = [] := by
  constructor
  · exact (C10_thm [] [] [] 3 0).1 (fun d hd => absurd hd (List.not_mem_nil d))
  · exact (C10_thm [{ pk := 3, specialization := "GENERAL" }] [] [] 3 0).2
      { pk := 3, specialization := "GENERAL" } (by decide) (by decide)

end CAQM
